import Mathlib

/-!
Verification of the `futures-dns` crate (src/futures-dns/src/lib.rs).

The crate has two independent pieces:

* An `Endpoint` model (`Host(&str, u16)` or `SocketAddr`) with a
  `ToEndpoint` conversion implemented for five input shapes.  The string
  forms depend on `std::net::IpAddr::from_str` and `u16::from_str`, which
  are embedded here faithfully following the Rust standard library
  (`core/src/net/parser.rs` and `core/src/num/mod.rs`): strings are
  modelled as their character lists and the parser as explicit state
  passing over the remaining characters, which makes the `read_atomically`
  backtracking of the Rust parser automatic.
* A `CpuPoolResolver`.  The platform lookup (`ToSocketAddrs` on a
  `"host:0"` string) is opaque blocking I/O, so it is a parameter: a
  function from the query string to either a list of socket addresses or
  an I/O error.  The thread-pool boundary (`CpuFuture` which "cannot fail
  unless it panics", then `res.unwrap()`) is modelled by a two-outcome
  type and an `Option`-valued unwrap, `none` standing for a propagated
  panic.
-/

/-- An IP address: `std::net::IpAddr`.  V4 carries its four octets, V6 its
eight 16-bit groups (as a list, most significant first). -/
inductive IpAddr : Type where
  | V4 : Nat → Nat → Nat → Nat → IpAddr
  | V6 : List Nat → IpAddr
deriving DecidableEq, Repr

/-- `std::net::SocketAddr`: an IP address together with a port. -/
structure SocketAddr : Type where
  ip : Nat × Nat × Nat × Nat ⊕ List Nat
  port : Nat
deriving DecidableEq, Repr

/-- `SocketAddr::new(ip, port)`. -/
def SocketAddr.new (a : IpAddr) (p : Nat) : SocketAddr :=
  match a with
  | .V4 x y z w => ⟨Sum.inl (x, y, z, w), p⟩
  | .V6 gs => ⟨Sum.inr gs, p⟩

/-- The IP component of a socket address, as returned by `SocketAddr::ip()`. -/
def SocketAddr.ipAddr (s : SocketAddr) : IpAddr :=
  match s.ip with
  | Sum.inl (x, y, z, w) => .V4 x y z w
  | Sum.inr gs => .V6 gs

/-! ## The Rust standard library parser (`core/src/net/parser.rs`)

The Rust parser keeps a mutable position in the input and wraps every
combinator in `read_atomically`, which restores the position on failure.
Here the remaining input is threaded explicitly, so a failing combinator
simply leaves the caller with the state it already had. -/

/-- Remaining input of the parser: the characters not yet consumed. -/
abbrev PState := List Char

/-- The radix-independent part of `char::to_digit`: the value of `c` as
an alphanumeric digit. -/
def toDigitRaw (c : Char) : Option Nat :=
  if '0' ≤ c ∧ c ≤ '9' then some (c.toNat - '0'.toNat)
  else if 'a' ≤ c ∧ c ≤ 'z' then some (c.toNat - 'a'.toNat + 10)
  else if 'A' ≤ c ∧ c ≤ 'Z' then some (c.toNat - 'A'.toNat + 10)
  else none

/-- `char::to_digit(radix)`: the value of `c` as a digit, if it is one and
is below the radix. -/
def toDigit (c : Char) (radix : Nat) : Option Nat :=
  match toDigitRaw c with
  | some d => if d < radix then some d else none
  | none => none

/-- `Parser::read_given_char`: consume exactly `c`. -/
def readGivenChar (c : Char) (s : PState) : Option PState :=
  match s with
  | [] => none
  | c' :: rest => if c' = c then some rest else none

/-- The digit-reading loop of `Parser::read_number`: greedily read digits
in the given radix, failing the whole number on machine-integer overflow
(`checked_mul`/`checked_add` against `bound`) or on more than `maxDigits`
digits.  Returns the value read, the digit count and the rest. -/
def readNumberLoop (radix bound maxDigits : Nat) :
    PState → Nat → Nat → Option (Nat × Nat × PState)
  | [], result, count => some (result, count, [])
  | c :: rest, result, count =>
    match toDigit c radix with
    | none => some (result, count, c :: rest)
    | some d =>
      if bound < result * radix + d then none
      else if maxDigits < count + 1 then none
      else readNumberLoop radix bound maxDigits rest (result * radix + d) (count + 1)

/-- `Parser::read_number(radix, Some(maxDigits), allowZeroPad)` reading
into an unsigned integer type with maximum value `bound`.  Rust's
`allow_zero_prefix` flag is called `allowZeroPad` here. -/
def readNumber (radix bound maxDigits : Nat) (allowZeroPad : Bool)
    (s : PState) : Option (Nat × PState) :=
  let hasLeadingZero := match s with | '0' :: _ => true | _ => false
  match readNumberLoop radix bound maxDigits s 0 0 with
  | none => none
  | some (result, count, rest) =>
    if count = 0 then none
    else if !allowZeroPad && hasLeadingZero && 1 < count then none
    else some (result, rest)

/-- `Parser::read_separator(sep, i, inner)` for a number: the separator is
required before every group except the first. -/
def readSepNumber (sep : Char) (i : Nat) (radix bound maxDigits : Nat)
    (allowZeroPad : Bool) (s : PState) : Option (Nat × PState) :=
  if i = 0 then readNumber radix bound maxDigits allowZeroPad s
  else
    match readGivenChar sep s with
    | none => none
    | some s1 => readNumber radix bound maxDigits allowZeroPad s1

/-- `Parser::read_ipv4_addr`: four decimal octets (at most 3 digits, no
zero padding, each at most 255) separated by dots. -/
def readIpv4 (s : PState) : Option ((Nat × Nat × Nat × Nat) × PState) :=
  match readSepNumber '.' 0 10 255 3 false s with
  | none => none
  | some (a, s1) =>
    match readSepNumber '.' 1 10 255 3 false s1 with
    | none => none
    | some (b, s2) =>
      match readSepNumber '.' 2 10 255 3 false s2 with
      | none => none
      | some (c, s3) =>
        match readSepNumber '.' 3 10 255 3 false s3 with
        | none => none
        | some (d, s4) => some ((a, b, c, d), s4)

/-- `Parser::read_separator(':', i, read_ipv4_addr)`: an embedded trailing
IPv4 address inside an IPv6 address, preceded by a colon unless first. -/
def readSepIpv4 (i : Nat) (s : PState) :
    Option ((Nat × Nat × Nat × Nat) × PState) :=
  if i = 0 then readIpv4 s
  else
    match readGivenChar ':' s with
    | none => none
    | some s1 => readIpv4 s1

/-- The `read_groups` helper of `Parser::read_ipv6_addr`: read up to `n`
further 16-bit hex groups starting at group index `i`, each preceded by a
colon except the first overall.  Before every group but the last slot a
trailing embedded IPv4 address is attempted, which fills two groups and
stops the loop with the Boolean flag set.  Never fails: returns the groups
read, the IPv4 flag and the rest of the input. -/
def readGroupsLoop : Nat → Nat → PState → List Nat × Bool × PState
  | 0, _, s => ([], false, s)
  | n + 1, i, s =>
    match (if 1 ≤ n then readSepIpv4 i s else none) with
    | some ((a, b, c, d), s1) => ([a * 256 + b, c * 256 + d], true, s1)
    | none =>
      match readSepNumber ':' i 16 65535 4 true s with
      | none => ([], false, s)
      | some (g, s1) =>
        let r := readGroupsLoop n (i + 1) s1
        (g :: r.1, r.2.1, r.2.2)

/-- `Parser::read_ipv6_addr`: up to 8 head groups; if fewer, a `::`
followed by tail groups, the gap filled with zero groups. -/
def readIpv6 (s : PState) : Option (List Nat × PState) :=
  let h := readGroupsLoop 8 0 s
  let head := h.1
  let headV4 := h.2.1
  let s1 := h.2.2
  if head.length = 8 then some (head, s1)
  else if headV4 then none
  else
    match readGivenChar ':' s1 with
    | none => none
    | some s2 =>
      match readGivenChar ':' s2 with
      | none => none
      | some s3 =>
        let limit := 8 - (head.length + 1)
        let t := readGroupsLoop limit 0 s3
        let tail := t.1
        some (head ++ List.replicate (8 - head.length - tail.length) 0
               ++ tail, t.2.2)

/-- `Parser::read_ip_addr`: an IPv4 address, or else an IPv6 address. -/
def readIpAddr (s : PState) : Option (IpAddr × PState) :=
  match readIpv4 s with
  | some ((a, b, c, d), s1) => some (.V4 a b c d, s1)
  | none =>
    match readIpv6 s with
    | some (gs, s1) => some (.V6 gs, s1)
    | none => none

/-- `IpAddr::from_str`: parse an IP address and require the whole input to
be consumed (`Parser::parse_with`). -/
def IpAddr.from_str (s : String) : Option IpAddr :=
  match readIpAddr s.data with
  | some (a, []) => some a
  | _ => none

/-- `Ipv6Addr::from_str`: parse an IPv6 address consuming the whole
input. -/
def Ipv6Addr.from_str (s : String) : Option (List Nat) :=
  match readIpv6 s.data with
  | some (gs, []) => some gs
  | _ => none

/-! ## `u16::from_str` (`core/src/num/mod.rs`, `from_str_radix` base 10) -/

/-- The digit loop of `from_str_radix` for `u16`: every character must be
a decimal digit and the accumulated value must stay within the type
(`checked_mul`/`checked_add`, bound 65535). -/
def fromStrRadixLoop : List Char → Nat → Option Nat
  | [], acc => some acc
  | c :: rest, acc =>
    match toDigit c 10 with
    | none => none
    | some d =>
      if 65535 < acc * 10 + d then none
      else fromStrRadixLoop rest (acc * 10 + d)

/-- `u16::from_str` on the character list: an optional leading `+`, then
at least one decimal digit, value at most 65535.  A leading `-` is not a
digit for an unsigned type and fails like any other non-digit. -/
def u16FromChars : List Char → Option Nat
  | [] => none
  | c :: rest =>
    if c = '+' then
      match rest with
      | [] => none
      | _ => fromStrRadixLoop rest 0
    else fromStrRadixLoop (c :: rest) 0

/-- `u16::from_str`. -/
def u16.from_str (s : String) : Option Nat :=
  u16FromChars s.data

/-! ## The `Endpoint` model and the `ToEndpoint` conversions -/

/-- The kind of an `io::Error` as this crate distinguishes them: the two
parse errors it constructs with `io::Error::new(ErrorKind::Other, msg)`. -/
inductive IoError : Type where
  | invalidPort : IoError
  | invalidEndpoint : IoError
deriving DecidableEq, Repr

/-- `Endpoint<'a>`: an unresolved host name with a port, or a socket
address. -/
inductive Endpoint : Type where
  | Host : String → Nat → Endpoint
  | SocketAddr : SocketAddr → Endpoint
deriving DecidableEq, Repr

/-- `impl ToEndpoint for SocketAddr`. -/
def SocketAddr.to_endpoint (a : SocketAddr) : Except IoError Endpoint :=
  .ok (.SocketAddr a)

/-- `impl ToEndpoint for &SocketAddr`: wraps the dereferenced copy. -/
def SocketAddr.ref_to_endpoint (a : SocketAddr) : Except IoError Endpoint :=
  .ok (.SocketAddr a)

/-- `impl ToEndpoint for (IpAddr, u16)`. -/
def ipPort_to_endpoint (x : IpAddr × Nat) : Except IoError Endpoint :=
  .ok (.SocketAddr (SocketAddr.new x.1 x.2))

/-- `impl ToEndpoint for (&str, u16)`: try the string as an IP literal
first, otherwise classify it as a host name. -/
def strPort_to_endpoint (x : String × Nat) : Except IoError Endpoint :=
  match IpAddr.from_str x.1 with
  | some addr => ipPort_to_endpoint (addr, x.2)
  | none => .ok (.Host x.1 x.2)

/-- The local `parse_port` of `impl ToEndpoint for &str`. -/
def parse_port (port : String) : Except IoError Nat :=
  match u16.from_str port with
  | some p => .ok p
  | none => .error .invalidPort

/-- `str::rfind(":")` on the character list: the index of the last colon,
if any.  (The colon is ASCII, so splitting at this character index yields
the same two strings as Rust's byte slicing at the byte index.) -/
def rfindColon : List Char → Option Nat
  | [] => none
  | c :: rest =>
    match rfindColon rest with
    | some i => some (i + 1)
    | none => if c = ':' then some 0 else none

/-- `impl ToEndpoint for &str`: split at the last colon, parse the port,
delegate to the `(&str, u16)` conversion; no colon is an error. -/
def str_to_endpoint (s : String) : Except IoError Endpoint :=
  match rfindColon s.data with
  | some idx =>
    match parse_port ⟨s.data.drop (idx + 1)⟩ with
    | .ok port => strPort_to_endpoint (⟨s.data.take idx⟩, port)
    | .error e => .error e
  | none => .error .invalidEndpoint

/-! ## The resolver

`CpuPoolResolver::resolve` formats `"{host}:0"`, submits a closure to the
pool that calls `to_socket_addrs` and maps each result to its IP, and
unwraps the pool's own result at the future boundary. -/

/-- The closure body submitted to the pool, with the platform lookup
`to_socket_addrs` as an explicit parameter returning either an ordered
list of socket addresses or an I/O error of an abstract type `ε`.
Includes the `format!("{}:0", host)` preparation. -/
def CpuPoolResolver.resolve (toSocketAddrs : String → Except ε (List SocketAddr))
    (host : String) : Except ε (List IpAddr) :=
  let host0 := host ++ ":0"
  match toSocketAddrs host0 with
  | .ok it => .ok (it.map SocketAddr.ipAddr)
  | .error e => .error e

/-- The outcome the `CpuFuture` delivers to the `then` continuation: the
closure's return value, or a panic of the pool worker. -/
inductive CpuFutureResult (α : Type) : Type where
  | completed : α → CpuFutureResult α
  | panicked : CpuFutureResult α

/-- The `then(|res| res.unwrap())` continuation: `unwrap` returns the
closure's result and panics (here `none`) when the worker panicked; a
panic is never turned into a value of `α`. -/
def thenUnwrap : CpuFutureResult α → Option α
  | .completed a => some a
  | .panicked => none

/-! ## Helper lemmas -/

lemma toDigit_colon : toDigit ':' 10 = none := by decide

/-- Every character accepted by the `u16` digit loop is a digit, so a
successful parse contains no colon. -/
lemma fromStrRadixLoop_no_colon :
    ∀ (l : List Char) (acc p : Nat), fromStrRadixLoop l acc = some p → ':' ∉ l := by
  intro l
  induction l with
  | nil =>
    intro acc p _
    simp
  | cons c rest ih =>
    intro acc p hl
    rw [List.mem_cons, not_or]
    cases hd : toDigit c 10 with
    | none =>
      simp only [fromStrRadixLoop, hd] at hl
      cases hl
    | some d =>
      simp only [fromStrRadixLoop, hd] at hl
      split at hl
      · cases hl
      · refine ⟨fun hc => ?_, ih _ _ hl⟩
        rw [← hc, toDigit_colon] at hd
        cases hd

/-- A string that `u16::from_str` accepts contains no colon. -/
lemma u16_from_str_no_colon (s : String) (p : Nat) (h : u16.from_str s = some p) :
    ':' ∉ s.data := by
  rw [u16.from_str] at h
  cases hs : s.data with
  | nil => simp
  | cons c rest =>
    rw [hs] at h
    rw [List.mem_cons, not_or]
    by_cases hc : c = '+'
    · subst hc
      refine ⟨by decide, ?_⟩
      cases rest with
      | nil => simp [u16FromChars] at h
      | cons c2 r2 =>
        simp only [u16FromChars, if_pos] at h
        exact fromStrRadixLoop_no_colon _ _ _ h
    · simp only [u16FromChars, if_neg hc] at h
      have hall := fromStrRadixLoop_no_colon _ _ _ h
      rw [List.mem_cons, not_or] at hall
      exact hall

/-- A list without a colon has no last colon. -/
lemma rfindColon_eq_none (l : List Char) (h : ':' ∉ l) : rfindColon l = none := by
  induction l with
  | nil => rfl
  | cons c rest ih =>
    rw [List.mem_cons, not_or] at h
    have hc : ¬ c = ':' := fun hcc => h.1 hcc.symm
    rw [rfindColon, ih h.2, if_neg hc]

/-- When the suffix after a colon has no further colon, `rfind` locates
exactly that colon. -/
lemma rfindColon_append (h r : List Char) (hr : ':' ∉ r) :
    rfindColon (h ++ ':' :: r) = some h.length := by
  induction h with
  | nil =>
    rw [List.nil_append, rfindColon, rfindColon_eq_none r hr]
    simp
  | cons c t ih =>
    rw [List.cons_append, rfindColon, ih, List.length_cons]

/-- The string conversion on an input assembled from a host part and a
colon-free suffix: the split happens exactly at that colon. -/
lemma str_to_endpoint_split (s rest : String) (hr : ':' ∉ rest.data) :
    str_to_endpoint (s ++ ":" ++ rest) =
      match u16.from_str rest with
      | some p => strPort_to_endpoint (s, p)
      | none => Except.error IoError.invalidPort := by
  have hdata : (s ++ ":" ++ rest).data = s.data ++ ':' :: rest.data := by
    rw [String.data_append, String.data_append]
    simp [List.append_assoc]
  have htake : (s.data ++ ':' :: rest.data).take s.data.length = s.data :=
    List.take_left s.data (':' :: rest.data)
  have hdrop : (s.data ++ ':' :: rest.data).drop (s.data.length + 1) = rest.data := by
    have hsplit : s.data ++ ':' :: rest.data = (s.data ++ [':']) ++ rest.data := by
      simp
    have hlen : (s.data ++ [':']).length = s.data.length + 1 := by
      simp
    rw [hsplit, ← hlen, List.drop_left]
  simp only [str_to_endpoint, hdata, rfindColon_append s.data rest.data hr,
    htake, hdrop]
  rw [show (⟨rest.data⟩ : String) = rest from rfl,
    show (⟨s.data⟩ : String) = s from rfl]
  simp only [parse_port]
  cases u16.from_str rest with
  | none => rfl
  | some p => rfl

/-- `'['` is not a digit in any radix. -/
lemma toDigit_bracket (radix : Nat) : toDigit '[' radix = none := by
  have hraw : toDigitRaw '[' = none := by decide
  simp [toDigit, hraw]

/-- The number loop reads nothing from input starting with `'['`. -/
lemma readNumberLoop_bracket (radix bound maxDigits result count : Nat)
    (cs : List Char) :
    readNumberLoop radix bound maxDigits ('[' :: cs) result count =
      some (result, count, '[' :: cs) := by
  simp only [readNumberLoop, toDigit_bracket]

/-- `read_number` fails on input starting with `'['`. -/
lemma readNumber_bracket (radix bound maxDigits : Nat) (azp : Bool)
    (cs : List Char) :
    readNumber radix bound maxDigits azp ('[' :: cs) = none := by
  simp [readNumber, readNumberLoop_bracket]

/-- `read_ipv4_addr` fails on input starting with `'['`. -/
lemma readIpv4_bracket (cs : List Char) : readIpv4 ('[' :: cs) = none := by
  simp [readIpv4, readSepNumber, readNumber_bracket]

/-- `read_ipv6_addr` fails on input starting with `'['`. -/
lemma readIpv6_bracket (cs : List Char) : readIpv6 ('[' :: cs) = none := by
  have hloop : readGroupsLoop 8 0 ('[' :: cs) = ([], false, '[' :: cs) := by
    simp [readGroupsLoop, readSepIpv4, readIpv4_bracket, readSepNumber,
      readNumber_bracket]
  have hcolon : readGivenChar ':' ('[' :: cs) = none := by
    simp [readGivenChar]
  simp [readIpv6, hloop, hcolon]

/-- No IP address literal starts with `'['`. -/
lemma readIpAddr_bracket (cs : List Char) : readIpAddr ('[' :: cs) = none := by
  simp [readIpAddr, readIpv4_bracket, readIpv6_bracket]

/-- `IpAddr::from_str` rejects any string starting with `'['`. -/
lemma from_str_bracket (s : String) (cs : List Char) (h : s.data = '[' :: cs) :
    IpAddr.from_str s = none := by
  simp only [IpAddr.from_str, h, readIpAddr_bracket]

/-- Inversion for the `(&str, u16)` conversion: a `Host` result carries
the supplied string and port unchanged. -/
lemma strPort_to_endpoint_host_inv (s : String) (p q : Nat) (hn : String)
    (h : strPort_to_endpoint (s, p) = Except.ok (Endpoint.Host hn q)) :
    hn = s ∧ q = p := by
  unfold strPort_to_endpoint at h
  cases hip : IpAddr.from_str s with
  | some a =>
    rw [hip] at h
    simp [ipPort_to_endpoint] at h
  | none =>
    rw [hip] at h
    rw [Except.ok.injEq, Endpoint.Host.injEq] at h
    exact ⟨h.1.symm, h.2.symm⟩

/-! ## The claims -/

/-- C1: for every string `s` and port `p`, `(s, p).to_endpoint()` returns
`Ok(Endpoint::SocketAddr(addr))` with `addr` built from the parsed IP and
`p` whenever `s` parses as a valid IP literal, and otherwise returns
`Ok(Endpoint::Host(s, p))`; the IP-literal check is attempted first and
the conversion is a pure function of the string (no name resolution). -/
theorem strPort_to_endpoint_ip_literal_first (s : String) (p : Nat) :
    (∀ a : IpAddr, IpAddr.from_str s = some a →
      strPort_to_endpoint (s, p) =
        Except.ok (Endpoint.SocketAddr (SocketAddr.new a p))) ∧
    (IpAddr.from_str s = none →
      strPort_to_endpoint (s, p) = Except.ok (Endpoint.Host s p)) := by
  constructor
  · intro a ha
    simp [strPort_to_endpoint, ha, ipPort_to_endpoint]
  · intro ha
    simp [strPort_to_endpoint, ha]

/-- C1 witness: `"0.0.0.0"` is an IP literal and becomes a socket
address; `"localhost"` is not and becomes a host. -/
theorem strPort_to_endpoint_ip_literal_first_w :
    (IpAddr.from_str "0.0.0.0" = some (IpAddr.V4 0 0 0 0) ∧
      strPort_to_endpoint ("0.0.0.0", 1227) =
        Except.ok (Endpoint.SocketAddr (SocketAddr.new (IpAddr.V4 0 0 0 0) 1227))) ∧
    (IpAddr.from_str "localhost" = none ∧
      strPort_to_endpoint ("localhost", 1227) =
        Except.ok (Endpoint.Host "localhost" 1227)) :=
  ⟨⟨rfl, (strPort_to_endpoint_ip_literal_first "0.0.0.0" 1227).1 _ rfl⟩,
   ⟨rfl, (strPort_to_endpoint_ip_literal_first "localhost" 1227).2 rfl⟩⟩

/-- C2: for every string with at least one colon whose segment after the
last colon parses as a `u16` value `p`, the conversion equals the
`(&str, u16)` conversion on the prefix before that colon; in particular a
non-IP-literal prefix yields `Host` with the prefix and `p` exactly as
split.  (The suffix of the last colon is colon-free, which the `u16`
parse already guarantees.) -/
theorem str_to_endpoint_splits_at_last_colon (s rest : String) (p : Nat)
    (hp : u16.from_str rest = some p) :
    str_to_endpoint (s ++ ":" ++ rest) = strPort_to_endpoint (s, p) ∧
    (IpAddr.from_str s = none →
      str_to_endpoint (s ++ ":" ++ rest) = Except.ok (Endpoint.Host s p)) := by
  have hr : ':' ∉ rest.data := u16_from_str_no_colon rest p hp
  have hsplit := str_to_endpoint_split s rest hr
  simp only [hp] at hsplit
  refine ⟨hsplit, fun hip => ?_⟩
  rw [hsplit]
  simp [strPort_to_endpoint, hip]

/-- C2 witness: `"localhost:1227"` splits into host `"localhost"` and
port `1227`. -/
theorem str_to_endpoint_splits_at_last_colon_w :
    u16.from_str "1227" = some 1227 ∧
    str_to_endpoint ("localhost" ++ ":" ++ "1227") =
      Except.ok (Endpoint.Host "localhost" 1227) :=
  ⟨rfl, (str_to_endpoint_splits_at_last_colon "localhost" "1227" 1227 rfl).2 rfl⟩

/-- C3: a string without a colon converts to an `InvalidEndpoint` error
(never `Ok`, never `InvalidPort`). -/
theorem str_to_endpoint_no_colon (s : String) (h : ':' ∉ s.data) :
    str_to_endpoint s = Except.error IoError.invalidEndpoint := by
  simp only [str_to_endpoint, rfindColon_eq_none s.data h]

/-- C3 witness: `"localhost"` has no colon and fails with
`InvalidEndpoint`. -/
theorem str_to_endpoint_no_colon_w :
    ':' ∉ ("localhost" : String).data ∧
    str_to_endpoint "localhost" = Except.error IoError.invalidEndpoint :=
  ⟨by decide, str_to_endpoint_no_colon "localhost" (by decide)⟩

/-- C4: a string whose segment after the last colon does not parse as a
`u16` converts to an `InvalidPort` error; no `Endpoint` is produced. -/
theorem str_to_endpoint_invalid_port (s rest : String)
    (hnc : ':' ∉ rest.data) (hp : u16.from_str rest = none) :
    str_to_endpoint (s ++ ":" ++ rest) = Except.error IoError.invalidPort := by
  have hsplit := str_to_endpoint_split s rest hnc
  simp only [hp] at hsplit
  exact hsplit

/-- C4 witness: `"host:abc"` and `"host:99999"` both fail with
`InvalidPort`. -/
theorem str_to_endpoint_invalid_port_w :
    (':' ∉ ("abc" : String).data ∧ u16.from_str "abc" = none ∧
      str_to_endpoint ("host" ++ ":" ++ "abc") = Except.error IoError.invalidPort) ∧
    (':' ∉ ("99999" : String).data ∧ u16.from_str "99999" = none ∧
      str_to_endpoint ("host" ++ ":" ++ "99999") = Except.error IoError.invalidPort) :=
  ⟨⟨by decide, rfl, str_to_endpoint_invalid_port "host" "abc" (by decide) rfl⟩,
   ⟨by decide, rfl, str_to_endpoint_invalid_port "host" "99999" (by decide) rfl⟩⟩

/-- C5 counterexample: the claim that a produced `Host` name is never
empty is false: the input `":80"` produces `Host("", 80)`. -/
theorem host_nonempty_refuted :
    ¬ ∀ (s hn : String) (p : Nat),
        str_to_endpoint s = Except.ok (Endpoint.Host hn p) → hn ≠ "" := by
  intro hall
  exact hall ":80" "" 80 rfl rfl

/-- C5 amended: a produced `Host` name is exactly the host segment the
caller supplied (the tuple's string, or the prefix before the last
colon), so it is non-empty whenever that supplied segment is non-empty;
an empty segment (e.g. `":80"` or `("", 80)`) yields an empty name. -/
theorem host_name_is_supplied_segment (s rest : String) (p q : Nat)
    (hn : String) (hs : s ≠ "") :
    (strPort_to_endpoint (s, p) = Except.ok (Endpoint.Host hn q) →
      hn = s ∧ hn ≠ "") ∧
    (u16.from_str rest = some p →
      str_to_endpoint (s ++ ":" ++ rest) = Except.ok (Endpoint.Host hn q) →
      hn = s ∧ hn ≠ "") := by
  constructor
  · intro h
    have hinv := strPort_to_endpoint_host_inv s p q hn h
    exact ⟨hinv.1, hinv.1 ▸ hs⟩
  · intro hp h
    have hr : ':' ∉ rest.data := u16_from_str_no_colon rest p hp
    have hsplit := str_to_endpoint_split s rest hr
    simp only [hp] at hsplit
    rw [hsplit] at h
    have hinv := strPort_to_endpoint_host_inv s p q hn h
    exact ⟨hinv.1, hinv.1 ▸ hs⟩

/-- C5 witness: the `("localhost", 1227)` conversion yields a `Host`
whose name is the supplied non-empty string. -/
theorem host_name_is_supplied_segment_w :
    ("localhost" : String) ≠ "" ∧
    ("localhost" : String) = "localhost" ∧ ("localhost" : String) ≠ "" :=
  ⟨by decide,
   (host_name_is_supplied_segment "localhost" "1227" 1227 1227 "localhost"
      (by decide)).1 rfl⟩

/-- C6: the direct conversions never fail and round-trip: a socket
address (by value or reference) wraps to `SocketAddr` equal to the input,
and an `(IpAddr, u16)` pair builds the corresponding socket address. -/
theorem direct_conversions_roundtrip (a : SocketAddr) (ip : IpAddr) (p : Nat) :
    SocketAddr.to_endpoint a = Except.ok (Endpoint.SocketAddr a) ∧
    SocketAddr.ref_to_endpoint a = Except.ok (Endpoint.SocketAddr a) ∧
    ipPort_to_endpoint (ip, p) =
      Except.ok (Endpoint.SocketAddr (SocketAddr.new ip p)) :=
  ⟨rfl, rfl, rfl⟩

/-- C7: when the platform lookup on the `"host:0"` query succeeds with a
list of socket addresses, `resolve` yields exactly the IP components of
that list, in order, duplicates preserved (the result is the `map` of the
IP projection, so nothing is sorted, deduplicated, or carries a port). -/
theorem resolve_yields_ips_in_order {ε : Type}
    (toSocketAddrs : String → Except ε (List SocketAddr)) (host : String)
    (addrs : List SocketAddr)
    (h : toSocketAddrs (host ++ ":0") = Except.ok addrs) :
    CpuPoolResolver.resolve toSocketAddrs host =
      Except.ok (addrs.map SocketAddr.ipAddr) := by
  simp [CpuPoolResolver.resolve, h]

/-- C7 witness: a lookup returning the same address twice resolves to the
duplicated IP list, in order. -/
theorem resolve_yields_ips_in_order_w :
    CpuPoolResolver.resolve
        (fun q => if q = "localhost:0"
          then (Except.ok [SocketAddr.new (IpAddr.V4 127 0 0 1) 0,
                 SocketAddr.new (IpAddr.V4 127 0 0 1) 0] :
                   Except Unit (List SocketAddr))
          else Except.error ())
        "localhost" =
      Except.ok [IpAddr.V4 127 0 0 1, IpAddr.V4 127 0 0 1] :=
  resolve_yields_ips_in_order _ "localhost"
    [SocketAddr.new (IpAddr.V4 127 0 0 1) 0,
     SocketAddr.new (IpAddr.V4 127 0 0 1) 0] rfl

/-- C8: when the platform lookup fails with an I/O error `e`, `resolve`
completes with exactly `e`, unchanged. -/
theorem resolve_error_passthrough {ε : Type}
    (toSocketAddrs : String → Except ε (List SocketAddr)) (host : String)
    (e : ε) (h : toSocketAddrs (host ++ ":0") = Except.error e) :
    CpuPoolResolver.resolve toSocketAddrs host = Except.error e := by
  simp [CpuPoolResolver.resolve, h]

/-- C8 witness: a lookup that fails with a concrete error surfaces that
error. -/
theorem resolve_error_passthrough_w :
    CpuPoolResolver.resolve
        (fun _ => (Except.error 42 : Except Nat (List SocketAddr)))
        "nosuchhost" =
      Except.error 42 :=
  resolve_error_passthrough _ "nosuchhost" 42 rfl

/-- C9: when the pool worker completed normally with result `r`, the
`unwrap` at the future boundary returns exactly `r` (its failure branch
is unreachable); an abnormal termination propagates as a panic (`none`),
never as an ordinary `Err` value of the resolution result. -/
theorem worker_panic_not_an_error {ε : Type} (r : Except ε (List IpAddr)) :
    thenUnwrap (CpuFutureResult.completed r) = some r ∧
    thenUnwrap (CpuFutureResult.panicked : CpuFutureResult (Except ε (List IpAddr))) = none ∧
    ∀ e : ε, thenUnwrap
        (CpuFutureResult.panicked : CpuFutureResult (Except ε (List IpAddr))) ≠
      some (Except.error e) :=
  ⟨rfl, rfl, fun _ h => Option.noConfusion h⟩

/-- C9 witness: a normally completed worker result is returned as is. -/
theorem worker_panic_not_an_error_w :
    thenUnwrap (CpuFutureResult.completed
        (Except.ok [] : Except Unit (List IpAddr))) =
      some (Except.ok []) :=
  (worker_panic_not_an_error (Except.ok [])).1

/-- C10: a bracketed IPv6 endpoint string `"[v6]:p"` is not recognized as
a socket address: the bracketed text, brackets included, becomes the host
name. -/
theorem bracketed_ipv6_is_host (v6 port : String) (p : Nat)
    (hv6 : (Ipv6Addr.from_str v6).isSome = true)
    (hp : u16.from_str port = some p) :
    str_to_endpoint (("[" ++ v6 ++ "]") ++ ":" ++ port) =
      Except.ok (Endpoint.Host ("[" ++ v6 ++ "]") p) := by
  have hnc : ':' ∉ port.data := u16_from_str_no_colon port p hp
  have hsplit := str_to_endpoint_split ("[" ++ v6 ++ "]") port hnc
  simp only [hp] at hsplit
  rw [hsplit]
  have hd : ("[" ++ v6 ++ "]").data = '[' :: (v6.data ++ [']']) := by
    rw [String.data_append, String.data_append]
    simp
  have hbr := from_str_bracket ("[" ++ v6 ++ "]") (v6.data ++ [']']) hd
  simp [strPort_to_endpoint, hbr]

/-- C10 witness: `"[::1]:80"` becomes `Host("[::1]", 80)`. -/
theorem bracketed_ipv6_is_host_w :
    (Ipv6Addr.from_str "::1").isSome = true ∧
    u16.from_str "80" = some 80 ∧
    str_to_endpoint (("[" ++ "::1" ++ "]") ++ ":" ++ "80") =
      Except.ok (Endpoint.Host ("[" ++ "::1" ++ "]") 80) :=
  ⟨rfl, rfl, bracketed_ipv6_is_host "::1" "80" 80 rfl rfl⟩
